import Mathlib

/-!
# Mixxx widgets: waveform viewer input mapping and menu-bar visibility bindings

A shallow embedding of `src/widget/wwaveformviewer.cpp` (mouse, wheel and
drag-and-drop handlers and the library-path setter of `WWaveformViewer`)
and, from `src/widget/wmainmenubar.cpp`, of the `VisibilityControlConnection`
class and of the deck actions of `WMainMenuBar`.

Conventions of the embedding:

* every handler is a pure function from the viewer's fields, the values it
  reads from its collaborators (`Env`) and the event, to the new fields and
  the ordered list of calls it makes on its collaborators (`Effect`);
* `double` values are rationals: the arithmetic of the handlers is taken
  exactly; pixel coordinates are unbounded integers;
* a pointer that is only tested for null is a `Bool` or an `Option`.
-/

namespace Mixxx

/-! ## Qt value types used by the handlers -/

/-- Buttons of a mouse event, after `Qt::MouseButton`. -/
inductive MouseButton where
  | NoButton
  | LeftButton
  | RightButton
  | MidButton
  deriving DecidableEq, Repr

/-- Cursor shapes the viewer sets, after `Qt::CursorShape`. -/
inductive CursorShape where
  | ArrowCursor
  | ClosedHandCursor
  deriving DecidableEq, Repr

/-- Integer point `QPoint`. -/
structure QPoint where
  x : Int
  y : Int
  deriving DecidableEq, Repr

/-- Default-constructed point `QPoint()`. -/
def QPoint.null : QPoint := ⟨0, 0⟩

/-- Difference of points, `operator-` of `QPoint`. -/
def QPoint.sub (a b : QPoint) : QPoint := ⟨a.x - b.x, a.y - b.y⟩

/-- The two renderings of a `QUrl` that `dropEvent` reads. -/
structure QUrl where
  toLocalFile : String
  toString : String
  deriving DecidableEq, Repr

/-- Payload `QMimeData` of a drag: the URL list when the payload has the
URL format, `none` when it has not. -/
structure QMimeData where
  uriList : Option (List QUrl)
  deriving DecidableEq, Repr

/-- Whether the payload has the URL format, `QMimeData::hasUrls`. -/
def QMimeData.hasUrls (m : QMimeData) : Bool := m.uriList.isSome

/-- URL list of the payload, `QMimeData::urls`: empty without the format. -/
def QMimeData.urls (m : QMimeData) : List QUrl := m.uriList.getD []

/-- Mouse press, move or release event. -/
structure QMouseEvent where
  button : MouseButton
  pos : QPoint
  deriving DecidableEq, Repr

/-- Wheel event. -/
structure QWheelEvent where
  delta : Int
  deriving DecidableEq, Repr

/-- Drag-enter or drop event. -/
structure QDropEvent where
  mimeData : QMimeData
  deriving DecidableEq, Repr

/-! ## Collaborators of the viewer -/

/-- Calls a handler makes on its collaborators, in the order it makes them. -/
inductive Effect where
  /-- The call `m_pScratch->slotSet(v)`: control `scratch_position`. -/
  | scratchSet (v : ℚ)
  /-- The call `m_pScratchEnable->slotSet(v)`: control `scratch_position_enable`. -/
  | scratchEnableSet (v : ℚ)
  /-- Signal `valueChangedRightDown(v)`: the bend value. -/
  | valueChangedRightDown (v : ℚ)
  /-- Signal `trackDropped(name, group)`. -/
  | trackDropped (name : String) (group : String)
  /-- The call `m_waveformWidget->setZoom(zoom)`. -/
  | setZoom (zoom : Int)
  /-- The call `m_waveformWidget->zoomIn()`. -/
  | zoomIn
  /-- The call `m_waveformWidget->zoomOut()`. -/
  | zoomOut
  /-- The call `WaveformWidgetFactory::instance()->onZoomChange(m_waveformWidget)`. -/
  | onZoomChange
  /-- The call `event->ignore()`. -/
  | ignore
  /-- The call `event->accept()`. -/
  | accept
  /-- The call `event->acceptProposedAction()`. -/
  | acceptProposedAction
  deriving DecidableEq, Repr

/-- Values a handler reads from outside the viewer at the time of the event. -/
structure Env where
  /-- Value of `m_pTrackSampleRate->get()`. -/
  track_samplerate : ℚ
  /-- Value of `m_pRate->get()`. -/
  rate : ℚ
  /-- Value of `m_pRateRange->get()`. -/
  rateRange : ℚ
  /-- Value of `m_pRateDir->get()`. -/
  rate_dir : ℚ
  /-- Result of `ControlObject::getControl(ConfigKey(m_pGroup, "play"))`:
  `none` for a null pointer, else the control's `get()`. -/
  play : Option ℚ
  /-- Result of `WaveformWidgetFactory::instance()`: `none` for a null
  pointer, else its `getDefaultZoom()`. -/
  factory : Option Int
  /-- File-existence check `QFile(name).exists()`. -/
  fileExists : String → Bool

/-- Fields of `WWaveformViewer`, with the cursor of the underlying widget. -/
structure WWaveformViewer where
  m_pGroup : String
  m_bScratching : Bool
  m_bBending : Bool
  m_iMouseStart : Int
  m_mouseAnchor : QPoint
  m_sPrefix : String
  m_zoomZoneWidth : Int
  /-- Whether `m_waveformWidget` is non-null. -/
  m_waveformWidget : Bool
  /-- Cursor of the widget, written by `setCursor`. -/
  cursor : CursorShape
  deriving DecidableEq, Repr

/-- Modelled from the spec: `math_min`, declared outside the translated files;
minimum by the standard comparison. -/
def math_min (a b : ℚ) : ℚ := if a < b then a else b

/-- Modelled from the spec: `math_max`, declared outside the translated files;
maximum by the standard comparison. -/
def math_max (a b : ℚ) : ℚ := if a > b then a else b

namespace WWaveformViewer

/-- Constructor `WWaveformViewer::WWaveformViewer(group, ...)`. -/
def construct (group : String) : WWaveformViewer :=
  { m_pGroup := group
    m_bScratching := false
    m_bBending := false
    m_iMouseStart := -1
    m_mouseAnchor := QPoint.null
    m_sPrefix := ""
    m_zoomZoneWidth := 20
    m_waveformWidget := false
    cursor := CursorShape.ArrowCursor }

/-- Handler `WWaveformViewer::mousePressEvent`. -/
def mousePressEvent (w : WWaveformViewer) (env : Env) (event : QMouseEvent) :
    WWaveformViewer × List Effect :=
  let w0 : WWaveformViewer :=
    { w with m_mouseAnchor := event.pos, m_iMouseStart := event.pos.x }
  let r : WWaveformViewer × List Effect :=
    if event.button = MouseButton.LeftButton then
      let b : WWaveformViewer × List Effect :=
        if w0.m_bBending then
          ({ w0 with m_bBending := false }, [Effect.valueChangedRightDown 64])
        else (w0, [])
      ({ b.1 with m_bScratching := true },
        b.2 ++ [Effect.scratchSet 0, Effect.scratchEnableSet 1])
    else if event.button = MouseButton.RightButton then
      let s : WWaveformViewer × List Effect :=
        if w0.m_bScratching then
          ({ w0 with m_bScratching := false },
            [Effect.scratchSet 0, Effect.scratchEnableSet 0])
        else (w0, [])
      let z : List Effect :=
        if w0.m_waveformWidget then
          match env.factory with
          | some defaultZoom => [Effect.setZoom defaultZoom, Effect.onZoomChange]
          | none => []
        else []
      ({ s.1 with m_bBending := true },
        s.2 ++ [Effect.valueChangedRightDown 64] ++ z)
    else (w0, [])
  ({ r.1 with cursor := CursorShape.ClosedHandCursor }, r.2)

/-- Handler `WWaveformViewer::mouseMoveEvent`. -/
def mouseMoveEvent (w : WWaveformViewer) (env : Env) (event : QMouseEvent) :
    WWaveformViewer × List Effect :=
  let diff : QPoint := QPoint.sub event.pos w.m_mouseAnchor
  if w.m_iMouseStart ≠ -1 ∧ w.m_bScratching = true then
    let samplesPerPixel : ℚ := env.track_samplerate / 100 * 2
    let rateAdjust : ℚ := env.rate_dir * math_min (99 / 100) (env.rate * env.rateRange)
    let targetPosition : ℚ := -1 * (diff.x : ℚ) * samplesPerPixel * (1 + rateAdjust)
    (w, [Effect.scratchSet targetPosition])
  else if w.m_iMouseStart ≠ -1 ∧ w.m_bBending = true then
    let v : ℚ := 64 + (diff.x : ℚ) / 10
    let v : ℚ := math_min 127 (math_max 0 v)
    (w, [Effect.valueChangedRightDown v])
  else (w, [])

/-- Handler `WWaveformViewer::mouseReleaseEvent`. -/
def mouseReleaseEvent (w : WWaveformViewer) (_event : QMouseEvent) :
    WWaveformViewer × List Effect :=
  let s : WWaveformViewer × List Effect :=
    if w.m_bScratching then
      ({ w with m_bScratching := false },
        [Effect.scratchEnableSet 0, Effect.scratchSet 0])
    else (w, [])
  let b : WWaveformViewer × List Effect :=
    if s.1.m_bBending then
      ({ s.1 with m_bBending := false }, s.2 ++ [Effect.valueChangedRightDown 64])
    else s
  ({ b.1 with
      m_iMouseStart := -1
      m_mouseAnchor := QPoint.null
      cursor := CursorShape.ArrowCursor }, b.2)

/-- Handler `WWaveformViewer::wheelEvent`. -/
def wheelEvent (w : WWaveformViewer) (env : Env) (event : QWheelEvent) :
    WWaveformViewer × List Effect :=
  if w.m_waveformWidget then
    let z : List Effect := if event.delta > 0 then [Effect.zoomIn] else [Effect.zoomOut]
    let n : List Effect :=
      match env.factory with
      | some _ => [Effect.onZoomChange]
      | none => []
    (w, z ++ n)
  else (w, [])

/-- Handler `WWaveformViewer::dragEnterEvent`. -/
def dragEnterEvent (w : WWaveformViewer) (env : Env) (event : QDropEvent) :
    WWaveformViewer × List Effect :=
  if event.mimeData.hasUrls = true ∧ event.mimeData.urls.length > 0 then
    let playing : Bool :=
      match env.play with
      | some p => decide (p ≠ 0)
      | none => false
    if playing then (w, [Effect.ignore]) else (w, [Effect.acceptProposedAction])
  else (w, [])

/-- Handler `WWaveformViewer::dropEvent`. -/
def dropEvent (w : WWaveformViewer) (env : Env) (event : QDropEvent) :
    WWaveformViewer × List Effect :=
  if h : event.mimeData.hasUrls = true ∧ event.mimeData.urls.length > 0 then
    let urls : List QUrl := event.mimeData.urls
    let url : QUrl := urls.head (List.ne_nil_of_length_pos h.2)
    let name : String := url.toLocalFile
    let name : String :=
      if !env.fileExists name then
        if env.fileExists (w.m_sPrefix ++ "/" ++ name) then w.m_sPrefix ++ "/" ++ name
        else name
      else name
    let name : String := if name = "" then url.toString else name
    (w, [Effect.accept, Effect.trackDropped name w.m_pGroup])
  else (w, [Effect.ignore])

/-- Events the viewer handles, each with the values read while handling it. -/
inductive Input where
  | mousePress (env : Env) (event : QMouseEvent)
  | mouseMove (env : Env) (event : QMouseEvent)
  | mouseRelease (event : QMouseEvent)
  | wheel (env : Env) (event : QWheelEvent)
  | dragEnter (env : Env) (event : QDropEvent)
  | drop (env : Env) (event : QDropEvent)

/-- Dispatch of one event to its handler. -/
def handle (w : WWaveformViewer) : Input → WWaveformViewer × List Effect
  | Input.mousePress env event => mousePressEvent w env event
  | Input.mouseMove env event => mouseMoveEvent w env event
  | Input.mouseRelease event => mouseReleaseEvent w event
  | Input.wheel env event => wheelEvent w env event
  | Input.dragEnter env event => dragEnterEvent w env event
  | Input.drop env event => dropEvent w env event

/-- Viewer after a finite sequence of events, handled in order. -/
def run (w : WWaveformViewer) : List Input → WWaveformViewer
  | [] => w
  | i :: rest => run (handle w i).1 rest

/-- Both mode flags set at once. -/
def bothModes (w : WWaveformViewer) : Prop :=
  w.m_bScratching = true ∧ w.m_bBending = true

/-! ### Projections of a list of calls -/

/-- Bend values emitted by `valueChangedRightDown`, in order. -/
def bendValues : List Effect → List ℚ
  | [] => []
  | Effect.valueChangedRightDown v :: rest => v :: bendValues rest
  | _ :: rest => bendValues rest

/-- Values written to `scratch_position`, in order. -/
def scratchWrites : List Effect → List ℚ
  | [] => []
  | Effect.scratchSet v :: rest => v :: scratchWrites rest
  | _ :: rest => scratchWrites rest

/-- Values written to `scratch_position_enable`, in order. -/
def scratchEnableWrites : List Effect → List ℚ
  | [] => []
  | Effect.scratchEnableSet v :: rest => v :: scratchEnableWrites rest
  | _ :: rest => scratchEnableWrites rest

/-- Acceptance flag of an event after the calls made on it, starting from
the flag `accepted` it was delivered with: `accept` and
`acceptProposedAction` set the flag, `ignore` clears it. -/
def eventAccepted (accepted : Bool) : List Effect → Bool
  | [] => accepted
  | Effect.accept :: rest => eventAccepted true rest
  | Effect.acceptProposedAction :: rest => eventAccepted true rest
  | Effect.ignore :: rest => eventAccepted false rest
  | _ :: rest => eventAccepted accepted rest

/-- Acceptance flag of a drag event after the calls a handler made on it.
The event reaches the handler unaccepted: the constructor of `QDropEvent`
calls `ignore()`, and the delivery of the event stops at the first widget
that accepts it. -/
def dragEventAccepted (out : List Effect) : Bool := eventAccepted false out

/-- Calls on the renderer and on the zoom factory, in order. -/
def zoomCalls : List Effect → List Effect
  | [] => []
  | Effect.setZoom z :: rest => Effect.setZoom z :: zoomCalls rest
  | Effect.zoomIn :: rest => Effect.zoomIn :: zoomCalls rest
  | Effect.zoomOut :: rest => Effect.zoomOut :: zoomCalls rest
  | Effect.onZoomChange :: rest => Effect.onZoomChange :: zoomCalls rest
  | _ :: rest => zoomCalls rest

/-- Names carried by the `trackDropped` signals, in order. -/
def droppedNames : List Effect → List String
  | [] => []
  | Effect.trackDropped name _ :: rest => name :: droppedNames rest
  | _ :: rest => droppedNames rest

/-- Inclusive clamp of `x` to the interval from `lo` to `hi`. -/
def specClamp (x lo hi : ℚ) : ℚ := max lo (min x hi)

/-- Bend value of the specification: `clamp(64 + dx/10, 0, 127)`. -/
def specBendValue (dx : Int) : ℚ := specClamp (64 + (dx : ℚ) / 10) 0 127

/-- Samples per pixel of the specification: `(sampleRate / 100) * 2`. -/
def specSamplesPerPixel (sampleRate : ℚ) : ℚ := sampleRate / 100 * 2

/-- Rate adjustment of the specification:
`rateDirection * min(0.99, rate * rateRange)`. -/
def specRateAdjust (rate rateRange rateDir : ℚ) : ℚ :=
  rateDir * min (99 / 100) (rate * rateRange)

/-- Scratch target of the specification:
`-dx * samplesPerPixel * (1 + rateAdjust)`. -/
def specScratchTarget (dx : Int) (sampleRate rate rateRange rateDir : ℚ) : ℚ :=
  -(dx : ℚ) * specSamplesPerPixel sampleRate * (1 + specRateAdjust rate rateRange rateDir)

end WWaveformViewer

/-! ## Visibility bindings of the main menu bar -/

/-- Key of a control: group and item name, after `ConfigKey`. -/
structure ConfigKey where
  group : String
  item : String
  deriving DecidableEq, Repr

/-- Modelled from the spec: the named control store, declared outside the
translated files; it maps a key to the scalar value of the control of that
name, `none` when no such control exists. -/
abbrev ControlStore := ConfigKey → Option ℚ

/-- State of the borrowed toggle action `QAction` that a binding touches. -/
structure QAction where
  enabled : Bool
  checked : Bool
  deriving DecidableEq, Repr

/-- Modelled from the spec: `ControlProxy`, declared outside the translated
files; a reference to the control named by a key, created also when no such
control exists, in which case it reports invalid. -/
structure ControlProxy where
  key : ConfigKey
  deriving DecidableEq, Repr

/-- Modelled from the spec: `ControlProxy::valid`; the named control exists. -/
def ControlProxy.valid (p : ControlProxy) (store : ControlStore) : Bool :=
  (store p.key).isSome

/-- Modelled from the spec: `ControlProxy::get`; the current value of the
control, and 0 when the control is absent. -/
def ControlProxy.get (p : ControlProxy) (store : ControlStore) : ℚ :=
  (store p.key).getD 0

/-- Modelled from the spec: `ControlProxy::toBool`; the boolean
interpretation `value != 0` of the current value. -/
def ControlProxy.toBool (p : ControlProxy) (store : ControlStore) : Bool :=
  decide (p.get store ≠ 0)

/-- Modelled from the spec: `ControlProxy::set`; writes the value to the
control, and is skipped when the control is absent. -/
def ControlProxy.set (p : ControlProxy) (store : ControlStore) (v : ℚ) : ControlStore :=
  if p.valid store then fun k => if k = p.key then some v else store k else store

/-- Fields of `VisibilityControlConnection`; `m_pAction` holds the state of
the action the connection points to. -/
structure VisibilityControlConnection where
  m_key : ConfigKey
  m_pControl : Option ControlProxy
  m_pAction : QAction
  deriving DecidableEq, Repr

namespace VisibilityControlConnection

/-- Slot `VisibilityControlConnection::slotClearControl`. -/
def slotClearControl (c : VisibilityControlConnection) : VisibilityControlConnection :=
  let c1 : VisibilityControlConnection := { c with m_pControl := none }
  { c1 with m_pAction := { c1.m_pAction with enabled := false } }

/-- Slot `VisibilityControlConnection::slotControlChanged`. -/
def slotControlChanged (c : VisibilityControlConnection) (store : ControlStore) :
    VisibilityControlConnection :=
  match c.m_pControl with
  | some pControl => { c with m_pAction := { c.m_pAction with checked := pControl.toBool store } }
  | none => c

/-- Slot `VisibilityControlConnection::slotReconnectControl`; the
subscription made by `connectValueChanged` is the delivery of
`slotControlChanged` after a change of the control. -/
def slotReconnectControl (c : VisibilityControlConnection) (store : ControlStore) :
    VisibilityControlConnection :=
  let pControl : ControlProxy := { key := c.m_key }
  let c1 : VisibilityControlConnection := { c with m_pControl := some pControl }
  let c2 : VisibilityControlConnection :=
    { c1 with m_pAction := { c1.m_pAction with enabled := pControl.valid store } }
  slotControlChanged c2 store

/-- Slot `VisibilityControlConnection::slotActionToggled`: the control store
after the call. -/
def slotActionToggled (c : VisibilityControlConnection) (store : ControlStore)
    (toggle : Bool) : ControlStore :=
  match c.m_pControl with
  | some pControl => pControl.set store (if toggle then 1 else 0)
  | none => store

/-- Constructor `VisibilityControlConnection::VisibilityControlConnection`:
it stores the key and the action and connects `triggered`; `m_pControl`
starts null and no call is made on the action. -/
def construct (key : ConfigKey) (pAction : QAction) : VisibilityControlConnection :=
  { m_key := key, m_pControl := none, m_pAction := pAction }

end VisibilityControlConnection

/-- State of an action right after `new QAction(...)` followed by
`setCheckable(true)`, as `WMainMenuBar` creates its toggles before
`createVisibilityControl`: enabled and unchecked. -/
def QAction.created : QAction := { enabled := true, checked := false }

/-- A visibility binding together with the control store it talks to. -/
structure Binding where
  conn : VisibilityControlConnection
  store : ControlStore

/-- Events in the life of a visibility binding. -/
inductive BindingEvent where
  /-- Signal `internalOnNewSkinLoaded`, connected to `slotReconnectControl`. -/
  | skinLoaded
  /-- Signal `internalOnNewSkinAboutToLoad`, connected to `slotClearControl`. -/
  | skinAboutToLoad
  /-- The user toggles the action to `v`: the checked state becomes `v`,
  `triggered(v)` runs `slotActionToggled(v)`, then `slotControlChanged` runs. -/
  | userToggle (v : Bool)
  /-- The value of the existing control `key` changes to `value` from
  outside, then `slotControlChanged` runs. -/
  | controlChange (key : ConfigKey) (value : ℚ)

namespace Binding

/-- The binding right after `createVisibilityControl(pAction, key)`. -/
def create (key : ConfigKey) (pAction : QAction) (store : ControlStore) : Binding :=
  { conn := VisibilityControlConnection.construct key pAction, store := store }

/-- The checked state of the toggle agrees with the boolean reading of the
reference whenever the connection holds one. -/
def synced (s : Binding) : Prop :=
  ∀ p : ControlProxy, s.conn.m_pControl = some p →
    s.conn.m_pAction.checked = p.toBool s.store

/-- Effect of one event on the binding and the store. -/
def step (s : Binding) : BindingEvent → Binding
  | BindingEvent.skinLoaded =>
    { s with conn := VisibilityControlConnection.slotReconnectControl s.conn s.store }
  | BindingEvent.skinAboutToLoad =>
    { s with conn := VisibilityControlConnection.slotClearControl s.conn }
  | BindingEvent.userToggle v =>
    let c1 : VisibilityControlConnection :=
      { s.conn with m_pAction := { s.conn.m_pAction with checked := v } }
    let store1 : ControlStore := VisibilityControlConnection.slotActionToggled c1 s.store v
    { conn := VisibilityControlConnection.slotControlChanged c1 store1, store := store1 }
  | BindingEvent.controlChange key value =>
    let store1 : ControlStore := ControlProxy.set { key := key } s.store value
    { conn := VisibilityControlConnection.slotControlChanged s.conn store1, store := store1 }

/-- Binding after a finite sequence of events, handled in order. -/
def run (s : Binding) : List BindingEvent → Binding
  | [] => s
  | e :: rest => run (step s e) rest

end Binding

/-! ## Library path of the viewer -/

/-- Character of a `QString` at an integer index, `operator[]`: defined for
indexes from 0 to `length - 1` only. -/
def QString.index (s : String) (i : Int) : Option Char :=
  if 0 ≤ i then s.data.get? i.toNat else none

/-- Removal of the last `n` characters, `QString::chop`. -/
def QString.chop (s : String) (n : Nat) : String :=
  String.mk (s.data.take (s.data.length - n))

namespace WWaveformViewer

/-- Index that `setLibraryPrefix` inspects: `sPrefix.length() - 1`. -/
def inspectedIndex (sPrefix : String) : Int := (sPrefix.length : Int) - 1

/-- Setter `WWaveformViewer::setLibraryPrefix`; `none` when the inspected
index is outside the string, where `operator[]` is not defined. -/
def setLibraryPrefix (w : WWaveformViewer) (sPrefix : String) : Option WWaveformViewer :=
  let w1 : WWaveformViewer := { w with m_sPrefix := "" }
  let w2 : WWaveformViewer := { w1 with m_sPrefix := sPrefix }
  match QString.index sPrefix (inspectedIndex sPrefix) with
  | none => none
  | some c =>
    if c = '/' ∨ c = '\\' then some { w2 with m_sPrefix := QString.chop w2.m_sPrefix 1 }
    else some w2

end WWaveformViewer

/-! ## Deck actions of the main menu bar -/

/-- Number of load-to-deck actions, `kMaxLoadToDeckActions`. -/
def kMaxLoadToDeckActions : Nat := 4

/-- An action of the menu bar that belongs to a deck: its visibility and
the argument of the signal it emits when triggered. -/
structure DeckAction where
  visible : Bool
  signalArg : Nat
  deriving DecidableEq, Repr

/-- Deck actions held by `WMainMenuBar`. -/
structure WMainMenuBar where
  m_loadToDeckActions : List DeckAction
  m_vinylControlEnabledActions : List DeckAction
  deriving DecidableEq, Repr

namespace WMainMenuBar

/-- Deck actions as the set-up routine of `WMainMenuBar`, run by its
constructor, creates them: `kMaxLoadToDeckActions` load-to-deck actions,
the one of index `deck` emitting `loadTrackToDeck(deck + 1)`, and
`kMaximumVinylControlInputs` vinyl-control actions, the one of index `i`
emitting `toggleVinylControl(i)`; all are created invisible. The constant
`kMaximumVinylControlInputs` is declared outside the translated files and
is a parameter; it is 0 when vinyl control is compiled out. -/
def create (kMaximumVinylControlInputs : Nat) : WMainMenuBar :=
  { m_loadToDeckActions :=
      (List.range kMaxLoadToDeckActions).map
        fun deck => { visible := false, signalArg := deck + 1 }
    m_vinylControlEnabledActions :=
      (List.range kMaximumVinylControlInputs).map
        fun i => { visible := false, signalArg := i } }

end WMainMenuBar

/-! ## Theorems: mode exclusion of the waveform viewer -/

namespace WWaveformViewer

theorem mousePressEvent_not_bothModes (w : WWaveformViewer) (env : Env)
    (event : QMouseEvent) (h : ¬ bothModes w) :
    ¬ bothModes (mousePressEvent w env event).1 := by
  unfold bothModes at *
  unfold mousePressEvent
  by_cases hl : event.button = MouseButton.LeftButton
  · cases hb : w.m_bBending <;> simp [hl, hb]
  · by_cases hr : event.button = MouseButton.RightButton
    · cases hs : w.m_bScratching <;> simp [hl, hr, hs]
    · simpa [hl, hr] using h

theorem mouseMoveEvent_fst (w : WWaveformViewer) (env : Env) (event : QMouseEvent) :
    (mouseMoveEvent w env event).1 = w := by
  unfold mouseMoveEvent
  simp only []
  split_ifs <;> rfl

theorem mouseReleaseEvent_flags (w : WWaveformViewer) (event : QMouseEvent) :
    (mouseReleaseEvent w event).1.m_bScratching = false ∧
      (mouseReleaseEvent w event).1.m_bBending = false := by
  unfold mouseReleaseEvent
  cases hs : w.m_bScratching <;> cases hb : w.m_bBending <;> simp [hs, hb]

theorem wheelEvent_fst (w : WWaveformViewer) (env : Env) (event : QWheelEvent) :
    (wheelEvent w env event).1 = w := by
  unfold wheelEvent
  split_ifs <;> rfl

theorem dragEnterEvent_fst (w : WWaveformViewer) (env : Env) (event : QDropEvent) :
    (dragEnterEvent w env event).1 = w := by
  unfold dragEnterEvent
  simp only []
  split_ifs <;> rfl

theorem dropEvent_fst (w : WWaveformViewer) (env : Env) (event : QDropEvent) :
    (dropEvent w env event).1 = w := by
  unfold dropEvent
  split_ifs <;> rfl

theorem handle_not_bothModes (w : WWaveformViewer) (i : Input) (h : ¬ bothModes w) :
    ¬ bothModes (handle w i).1 := by
  cases i with
  | mousePress env event => exact mousePressEvent_not_bothModes w env event h
  | mouseMove env event => simpa [handle, mouseMoveEvent_fst] using h
  | mouseRelease event =>
    have hf := mouseReleaseEvent_flags w event
    simp [handle, bothModes, hf.1]
  | wheel env event => simpa [handle, wheelEvent_fst] using h
  | dragEnter env event => simpa [handle, dragEnterEvent_fst] using h
  | drop env event => simpa [handle, dropEvent_fst] using h

theorem run_not_bothModes (inputs : List Input) :
    ∀ w : WWaveformViewer, ¬ bothModes w → ¬ bothModes (run w inputs) := by
  induction inputs with
  | nil => intro w h; simpa [run] using h
  | cons i rest ih =>
    intro w h
    simpa [run] using ih (handle w i).1 (handle_not_bothModes w i h)

/-- C1: from a viewer whose flags `m_bScratching` and `m_bBending` are both
false, as the constructor leaves them, no finite sequence of press, move,
release, wheel, drag-enter and drop events reaches a state in which both
flags are true. -/
theorem mode_exclusion_invariant (w : WWaveformViewer) (inputs : List Input)
    (hs : w.m_bScratching = false) (hb : w.m_bBending = false) :
    ¬ ((run w inputs).m_bScratching = true ∧ (run w inputs).m_bBending = true) :=
  run_not_bothModes inputs w (by simp [bothModes, hs, hb])

/-- Witness of C1: the constructed viewer of deck `[Channel1]` taken through
a right press, a left press, a move and a release. -/
theorem mode_exclusion_invariant_witness :
    (construct "[Channel1]").m_bScratching = false ∧
    (construct "[Channel1]").m_bBending = false ∧
    ¬ ((run (construct "[Channel1]")
          [Input.mousePress ⟨44100, 0, 1, 1, none, none, fun _ => false⟩
              ⟨MouseButton.RightButton, ⟨3, 4⟩⟩,
            Input.mousePress ⟨44100, 0, 1, 1, none, none, fun _ => false⟩
              ⟨MouseButton.LeftButton, ⟨5, 4⟩⟩,
            Input.mouseMove ⟨44100, 0, 1, 1, none, none, fun _ => false⟩
              ⟨MouseButton.NoButton, ⟨9, 4⟩⟩,
            Input.mouseRelease ⟨MouseButton.LeftButton, ⟨9, 4⟩⟩]).m_bScratching = true ∧
        (run (construct "[Channel1]")
          [Input.mousePress ⟨44100, 0, 1, 1, none, none, fun _ => false⟩
              ⟨MouseButton.RightButton, ⟨3, 4⟩⟩,
            Input.mousePress ⟨44100, 0, 1, 1, none, none, fun _ => false⟩
              ⟨MouseButton.LeftButton, ⟨5, 4⟩⟩,
            Input.mouseMove ⟨44100, 0, 1, 1, none, none, fun _ => false⟩
              ⟨MouseButton.NoButton, ⟨9, 4⟩⟩,
            Input.mouseRelease ⟨MouseButton.LeftButton, ⟨9, 4⟩⟩]).m_bBending = true) :=
  ⟨rfl, rfl, mode_exclusion_invariant _ _ rfl rfl⟩

/-! ## Theorems: press and release transitions -/

/-- C2: a press with the left button while Bending is active emits
`valueChangedRightDown(64)` first and exactly once and no other bend value,
then writes `scratch_position = 0` and `scratch_position_enable = 1`, and
ends with `m_bBending` false and `m_bScratching` true. -/
theorem press_left_while_bending (w : WWaveformViewer) (env : Env) (event : QMouseEvent)
    (hb : w.m_bBending = true) (hl : event.button = MouseButton.LeftButton) :
    (mousePressEvent w env event).2 =
        [Effect.valueChangedRightDown 64, Effect.scratchSet 0, Effect.scratchEnableSet 1] ∧
      bendValues (mousePressEvent w env event).2 = [64] ∧
      scratchWrites (mousePressEvent w env event).2 = [0] ∧
      scratchEnableWrites (mousePressEvent w env event).2 = [1] ∧
      (mousePressEvent w env event).1.m_bBending = false ∧
      (mousePressEvent w env event).1.m_bScratching = true := by
  have ht : (mousePressEvent w env event).2 =
      [Effect.valueChangedRightDown 64, Effect.scratchSet 0, Effect.scratchEnableSet 1] := by
    simp [mousePressEvent, hb, hl]
  refine ⟨ht, ?_, ?_, ?_, ?_, ?_⟩
  · rw [ht]; rfl
  · rw [ht]; rfl
  · rw [ht]; rfl
  · simp [mousePressEvent, hb, hl]
  · simp [mousePressEvent, hb, hl]

/-- Witness of C2: a bending viewer anchored at x = 3 receives a left press. -/
theorem press_left_while_bending_witness :
    bendValues (mousePressEvent
        { construct "[Channel1]" with m_bBending := true, m_iMouseStart := 3 }
        ⟨44100, 0, 1, 1, none, none, fun _ => false⟩
        ⟨MouseButton.LeftButton, ⟨7, 2⟩⟩).2 = [64] ∧
      (mousePressEvent
        { construct "[Channel1]" with m_bBending := true, m_iMouseStart := 3 }
        ⟨44100, 0, 1, 1, none, none, fun _ => false⟩
        ⟨MouseButton.LeftButton, ⟨7, 2⟩⟩).1.m_bScratching = true :=
  have h := press_left_while_bending
    { construct "[Channel1]" with m_bBending := true, m_iMouseStart := 3 }
    ⟨44100, 0, 1, 1, none, none, fun _ => false⟩
    ⟨MouseButton.LeftButton, ⟨7, 2⟩⟩ rfl rfl
  ⟨h.2.1, h.2.2.2.2.2⟩

/-- C3: a press with the right button while Scratching is active writes
`scratch_position = 0` and `scratch_position_enable = 0`, each exactly once,
as its first two calls, then emits `valueChangedRightDown(64)` as its third
call and no other bend value, and ends with `m_bScratching` false and
`m_bBending` true. -/
theorem press_right_while_scratching (w : WWaveformViewer) (env : Env) (event : QMouseEvent)
    (hs : w.m_bScratching = true) (hr : event.button = MouseButton.RightButton) :
    (mousePressEvent w env event).2.take 3 =
        [Effect.scratchSet 0, Effect.scratchEnableSet 0, Effect.valueChangedRightDown 64] ∧
      scratchWrites (mousePressEvent w env event).2 = [0] ∧
      scratchEnableWrites (mousePressEvent w env event).2 = [0] ∧
      bendValues (mousePressEvent w env event).2 = [64] ∧
      (mousePressEvent w env event).1.m_bScratching = false ∧
      (mousePressEvent w env event).1.m_bBending = true := by
  have hne : ¬ MouseButton.RightButton = MouseButton.LeftButton := by decide
  refine ⟨?_, ?_, ?_, ?_, ?_, ?_⟩ <;>
    cases hw : w.m_waveformWidget <;> cases hf : env.factory <;>
      simp [mousePressEvent, hs, hr, hw, hf, hne, scratchWrites, scratchEnableWrites,
        bendValues]

/-- Witness of C3: a scratching viewer with a renderer attached receives a
right press while the zoom factory exists. -/
theorem press_right_while_scratching_witness :
    (mousePressEvent
        { construct "[Channel1]" with m_bScratching := true, m_waveformWidget := true }
        ⟨44100, 0, 1, 1, none, some 3, fun _ => false⟩
        ⟨MouseButton.RightButton, ⟨7, 2⟩⟩).2.take 3 =
        [Effect.scratchSet 0, Effect.scratchEnableSet 0, Effect.valueChangedRightDown 64] ∧
      (mousePressEvent
        { construct "[Channel1]" with m_bScratching := true, m_waveformWidget := true }
        ⟨44100, 0, 1, 1, none, some 3, fun _ => false⟩
        ⟨MouseButton.RightButton, ⟨7, 2⟩⟩).1.m_bBending = true :=
  have h := press_right_while_scratching
    { construct "[Channel1]" with m_bScratching := true, m_waveformWidget := true }
    ⟨44100, 0, 1, 1, none, some 3, fun _ => false⟩
    ⟨MouseButton.RightButton, ⟨7, 2⟩⟩ rfl rfl
  ⟨h.1, h.2.2.2.2.2⟩

/-- C6: `mouseReleaseEvent` ends with both mode flags false,
`m_iMouseStart = -1` and the anchor at the null point; its calls are exactly
the writes `scratch_position_enable = 0` and `scratch_position = 0` when
Scratching was active, followed by the emission `valueChangedRightDown(64)`
when Bending was active, and nothing when the viewer was idle. -/
theorem release_returns_to_idle (w : WWaveformViewer) (event : QMouseEvent) :
    (mouseReleaseEvent w event).1.m_bScratching = false ∧
      (mouseReleaseEvent w event).1.m_bBending = false ∧
      (mouseReleaseEvent w event).1.m_iMouseStart = -1 ∧
      (mouseReleaseEvent w event).1.m_mouseAnchor = ⟨0, 0⟩ ∧
      (mouseReleaseEvent w event).2 =
        (if w.m_bScratching then [Effect.scratchEnableSet 0, Effect.scratchSet 0] else []) ++
          (if w.m_bBending then [Effect.valueChangedRightDown 64] else []) ∧
      scratchEnableWrites (mouseReleaseEvent w event).2 =
        (if w.m_bScratching then [0] else []) ∧
      scratchWrites (mouseReleaseEvent w event).2 = (if w.m_bScratching then [0] else []) ∧
      bendValues (mouseReleaseEvent w event).2 = (if w.m_bBending then [64] else []) := by
  cases hs : w.m_bScratching <;> cases hb : w.m_bBending <;>
    simp [mouseReleaseEvent, hs, hb, QPoint.null, scratchWrites, scratchEnableWrites,
      bendValues]

end WWaveformViewer

/-! ## Theorems: the move formulas -/

theorem math_min_eq_min (a b : ℚ) : math_min a b = min a b := by
  unfold math_min
  rcases lt_trichotomy a b with h | h | h
  · rw [if_pos h, min_eq_left h.le]
  · subst h; simp
  · rw [if_neg (not_lt.mpr h.le), min_eq_right h.le]

theorem math_max_eq_max (a b : ℚ) : math_max a b = max a b := by
  unfold math_max
  rcases lt_trichotomy a b with h | h | h
  · rw [if_neg (not_lt.mpr h.le), max_eq_right h.le]
  · subst h; simp
  · rw [if_pos h, max_eq_left h.le]

namespace WWaveformViewer

theorem clamp_code_eq_spec (x : ℚ) :
    math_min 127 (math_max 0 x) = specClamp x 0 127 := by
  rw [math_min_eq_min, math_max_eq_max]
  unfold specClamp
  rcases le_total x 0 with h0 | h0
  · have h1 : x ≤ 127 := by linarith
    rw [max_eq_left h0, min_eq_left h1, max_eq_left h0, min_eq_right (by norm_num)]
  · rcases le_total x 127 with h1 | h1
    · rw [max_eq_right h0, min_eq_right h1, min_eq_left h1, max_eq_right h0]
    · have h2 : (0 : ℚ) ≤ 127 := by norm_num
      rw [max_eq_right h0, min_eq_left h1, min_eq_right h1, max_eq_right h2]

theorem specClamp_bounds (x : ℚ) : 0 ≤ specClamp x 0 127 ∧ specClamp x 0 127 ≤ 127 := by
  unfold specClamp
  refine ⟨le_max_left _ _, max_le (by norm_num) (min_le_right _ _)⟩

theorem mouseMoveEvent_snd (w : WWaveformViewer) (env : Env) (event : QMouseEvent) :
    (mouseMoveEvent w env event).2 =
      if w.m_iMouseStart ≠ -1 ∧ w.m_bScratching = true then
        [Effect.scratchSet (specScratchTarget (event.pos.x - w.m_mouseAnchor.x)
          env.track_samplerate env.rate env.rateRange env.rate_dir)]
      else if w.m_iMouseStart ≠ -1 ∧ w.m_bBending = true then
        [Effect.valueChangedRightDown (specBendValue (event.pos.x - w.m_mouseAnchor.x))]
      else [] := by
  unfold mouseMoveEvent
  simp only []
  split_ifs with h1 h2
  · simp [specScratchTarget, specSamplesPerPixel, specRateAdjust, math_min_eq_min,
      QPoint.sub]
  · simp [specBendValue, clamp_code_eq_spec, QPoint.sub]
  · rfl

/-- C4: every bend value that `mouseMoveEvent` emits equals
`clamp(64 + dx/10, 0, 127)` for `dx = position.x - anchor.x`, taken over the
rationals, and lies between 0 and 127; a Bending viewer that is not
Scratching and whose `m_iMouseStart` is not -1 emits exactly that value;
`dx = 0` gives 64, `dx = 640` gives 127 and `dx = -640` gives 0, so both
bounds are emitted. -/
theorem bend_value_formula :
    (∀ (w : WWaveformViewer) (env : Env) (event : QMouseEvent) (v : ℚ),
      Effect.valueChangedRightDown v ∈ (mouseMoveEvent w env event).2 →
        v = specBendValue (event.pos.x - w.m_mouseAnchor.x) ∧ 0 ≤ v ∧ v ≤ 127) ∧
    (∀ (w : WWaveformViewer) (env : Env) (event : QMouseEvent),
      w.m_iMouseStart ≠ -1 → w.m_bScratching = false → w.m_bBending = true →
        (mouseMoveEvent w env event).2 =
          [Effect.valueChangedRightDown (specBendValue (event.pos.x - w.m_mouseAnchor.x))]) ∧
    specBendValue 0 = 64 ∧ specBendValue 640 = 127 ∧ specBendValue (-640) = 0 ∧
    (∀ env : Env,
      (mouseMoveEvent { construct "" with m_bBending := true, m_iMouseStart := 0 } env
          ⟨MouseButton.NoButton, ⟨640, 0⟩⟩).2 = [Effect.valueChangedRightDown 127] ∧
      (mouseMoveEvent { construct "" with m_bBending := true, m_iMouseStart := 0 } env
          ⟨MouseButton.NoButton, ⟨-640, 0⟩⟩).2 = [Effect.valueChangedRightDown 0]) := by
  have e0 : specBendValue 0 = 64 := by norm_num [specBendValue, specClamp]
  have e1 : specBendValue 640 = 127 := by norm_num [specBendValue, specClamp]
  have e2 : specBendValue (-640) = 0 := by norm_num [specBendValue, specClamp]
  refine ⟨?_, ?_, e0, e1, e2, ?_⟩
  · intro w env event v hv
    rw [mouseMoveEvent_snd] at hv
    split_ifs at hv with h1 h2
    · simp at hv
    · simp only [List.mem_singleton, Effect.valueChangedRightDown.injEq] at hv
      subst hv
      exact ⟨rfl, specClamp_bounds _⟩
    · simp at hv
  · intro w env event hm hs hb
    rw [mouseMoveEvent_snd]
    simp [hm, hs, hb]
  · intro env
    constructor
    · rw [mouseMoveEvent_snd]
      simp [construct, QPoint.null, e1]
    · rw [mouseMoveEvent_snd]
      simp [construct, QPoint.null, e2]

/-- Witness of C4: a Bending viewer anchored at x = 5 receives a move to
x = 35 and emits 67. -/
theorem bend_value_formula_witness :
    Effect.valueChangedRightDown 67 ∈
        (mouseMoveEvent
          { construct "[Channel1]" with
              m_bBending := true, m_iMouseStart := 5, m_mouseAnchor := ⟨5, 0⟩ }
          ⟨44100, 0, 1, 1, none, none, fun _ => false⟩
          ⟨MouseButton.NoButton, ⟨35, 9⟩⟩).2 ∧
      ((67 : ℚ) = specBendValue (35 - 5) ∧ (0 : ℚ) ≤ 67 ∧ (67 : ℚ) ≤ 127) :=
  have hmem : Effect.valueChangedRightDown 67 ∈
      (mouseMoveEvent
        { construct "[Channel1]" with
            m_bBending := true, m_iMouseStart := 5, m_mouseAnchor := ⟨5, 0⟩ }
        ⟨44100, 0, 1, 1, none, none, fun _ => false⟩
        ⟨MouseButton.NoButton, ⟨35, 9⟩⟩).2 := by
    rw [mouseMoveEvent_snd]
    norm_num [construct, specBendValue, specClamp]
  ⟨hmem, bend_value_formula.1
    { construct "[Channel1]" with
        m_bBending := true, m_iMouseStart := 5, m_mouseAnchor := ⟨5, 0⟩ }
    ⟨44100, 0, 1, 1, none, none, fun _ => false⟩
    ⟨MouseButton.NoButton, ⟨35, 9⟩⟩ 67 hmem⟩

/-- C5: every value that `mouseMoveEvent` writes to `scratch_position` equals
`-dx * (sampleRate/100 * 2) * (1 + rateDir * min(0.99, rate * rateRange))`
for `dx = position.x - anchor.x` and the controls read during the move,
taken over the rationals; a Scratching viewer whose `m_iMouseStart` is not
-1 writes exactly that value; with `sampleRate = 44100`, `rate = 0` and
`dx = 100` the samples per pixel are 882, the rate adjustment is 0 and the
target is -88200, for every `rateRange` and `rateDir`. -/
theorem scratch_target_formula :
    (∀ (w : WWaveformViewer) (env : Env) (event : QMouseEvent) (v : ℚ),
      Effect.scratchSet v ∈ (mouseMoveEvent w env event).2 →
        v = -((event.pos.x - w.m_mouseAnchor.x : Int) : ℚ) * (env.track_samplerate / 100 * 2) *
              (1 + env.rate_dir * min (99 / 100) (env.rate * env.rateRange)) ∧
        v = specScratchTarget (event.pos.x - w.m_mouseAnchor.x)
              env.track_samplerate env.rate env.rateRange env.rate_dir) ∧
    (∀ (w : WWaveformViewer) (env : Env) (event : QMouseEvent),
      w.m_iMouseStart ≠ -1 → w.m_bScratching = true →
        (mouseMoveEvent w env event).2 =
          [Effect.scratchSet (specScratchTarget (event.pos.x - w.m_mouseAnchor.x)
            env.track_samplerate env.rate env.rateRange env.rate_dir)]) ∧
    (∀ rateRange rateDir : ℚ,
      specSamplesPerPixel 44100 = 882 ∧ specRateAdjust 0 rateRange rateDir = 0 ∧
        specScratchTarget 100 44100 0 rateRange rateDir = -88200) := by
  refine ⟨?_, ?_, ?_⟩
  · intro w env event v hv
    rw [mouseMoveEvent_snd] at hv
    split_ifs at hv with h1 h2
    · simp only [List.mem_singleton, Effect.scratchSet.injEq] at hv
      subst hv
      exact ⟨rfl, rfl⟩
    · simp at hv
    · simp at hv
  · intro w env event hm hs
    rw [mouseMoveEvent_snd]
    simp [hm, hs]
  · intro rateRange rateDir
    have hmin : min (99 / 100 : ℚ) 0 = 0 := min_eq_right (by norm_num)
    refine ⟨by norm_num [specSamplesPerPixel], ?_, ?_⟩
    · simp [specRateAdjust, hmin]
    · simp only [specScratchTarget, specSamplesPerPixel, specRateAdjust, zero_mul, hmin]
      norm_num

/-- Witness of C5: a Scratching viewer anchored at x = 5 receives a move to
x = 105 at 44100 Hz with rate 0 and writes -88200. -/
theorem scratch_target_formula_witness :
    Effect.scratchSet (-88200) ∈
        (mouseMoveEvent
          { construct "[Channel1]" with
              m_bScratching := true, m_iMouseStart := 5, m_mouseAnchor := ⟨5, 0⟩ }
          ⟨44100, 0, 1 / 10, 1, none, none, fun _ => false⟩
          ⟨MouseButton.NoButton, ⟨105, 9⟩⟩).2 ∧
      (-88200 : ℚ) = specScratchTarget (105 - 5) 44100 0 (1 / 10) 1 :=
  have hmem : Effect.scratchSet (-88200) ∈
      (mouseMoveEvent
        { construct "[Channel1]" with
            m_bScratching := true, m_iMouseStart := 5, m_mouseAnchor := ⟨5, 0⟩ }
        ⟨44100, 0, 1 / 10, 1, none, none, fun _ => false⟩
        ⟨MouseButton.NoButton, ⟨105, 9⟩⟩).2 := by
    rw [mouseMoveEvent_snd]
    have hmin : min (99 / 100 : ℚ) 0 = 0 := min_eq_right (by norm_num)
    norm_num [construct, specScratchTarget, specSamplesPerPixel, specRateAdjust, hmin]
  ⟨hmem, (scratch_target_formula.1
    { construct "[Channel1]" with
        m_bScratching := true, m_iMouseStart := 5, m_mouseAnchor := ⟨5, 0⟩ }
    ⟨44100, 0, 1 / 10, 1, none, none, fun _ => false⟩
    ⟨MouseButton.NoButton, ⟨105, 9⟩⟩ (-88200) hmem).2⟩

/-! ## Theorems: drag and drop -/

/-- C7: `dragEnterEvent` accepts the proposed action exactly when the event
carries at least one URL and the play control is absent or 0, and the event
then ends accepted; in every other case the event ends rejected, that is
not accepted: with URLs while the play control exists with a non-zero value
the handler calls `ignore()`, and without URLs it makes no call, so the
event stays unaccepted as it was delivered; the viewer is unchanged. -/
theorem dragEnter_accept_iff (w : WWaveformViewer) (env : Env) (event : QDropEvent) :
    (Effect.acceptProposedAction ∈ (dragEnterEvent w env event).2 ↔
        event.mimeData.urls.length > 0 ∧ (env.play = none ∨ env.play = some 0)) ∧
      (dragEventAccepted (dragEnterEvent w env event).2 = true ↔
        event.mimeData.urls.length > 0 ∧ (env.play = none ∨ env.play = some 0)) ∧
      (¬ (event.mimeData.urls.length > 0 ∧ (env.play = none ∨ env.play = some 0)) →
        dragEventAccepted (dragEnterEvent w env event).2 = false ∧
          Effect.acceptProposedAction ∉ (dragEnterEvent w env event).2 ∧
          Effect.accept ∉ (dragEnterEvent w env event).2) ∧
      (event.mimeData.urls.length > 0 → (∃ p, env.play = some p ∧ p ≠ 0) →
        (dragEnterEvent w env event).2 = [Effect.ignore]) ∧
      (event.mimeData.urls.length = 0 → (dragEnterEvent w env event).2 = []) ∧
      (dragEnterEvent w env event).1 = w := by
  obtain ⟨⟨ul⟩⟩ := event
  cases ul with
  | none =>
    simp [dragEnterEvent, QMimeData.hasUrls, QMimeData.urls, eventAccepted, dragEventAccepted]
  | some l =>
    cases l with
    | nil =>
      simp [dragEnterEvent, QMimeData.hasUrls, QMimeData.urls, eventAccepted,
        dragEventAccepted]
    | cons u rest =>
      cases hp : env.play with
      | none =>
        simp [dragEnterEvent, QMimeData.hasUrls, QMimeData.urls, eventAccepted,
          dragEventAccepted, hp]
      | some p =>
        by_cases h0 : p = 0
        · simp [dragEnterEvent, QMimeData.hasUrls, QMimeData.urls, eventAccepted,
            dragEventAccepted, hp, h0]
        · simp [dragEnterEvent, QMimeData.hasUrls, QMimeData.urls, eventAccepted,
            dragEventAccepted, hp, h0]

/-- Witness of C7: a drag-enter event without URLs while the deck plays, and
one with a URL while the deck plays; both end rejected. -/
theorem dragEnter_accept_iff_witness :
    dragEventAccepted (dragEnterEvent (construct "[Channel1]")
        ⟨44100, 0, 1, 1, some 1, none, fun _ => false⟩ ⟨⟨none⟩⟩).2 = false ∧
      (dragEnterEvent (construct "[Channel1]")
        ⟨44100, 0, 1, 1, some 1, none, fun _ => false⟩
        ⟨⟨some [⟨"a.mp3", "file:a.mp3"⟩]⟩⟩).2 = [Effect.ignore] :=
  ⟨((dragEnter_accept_iff (construct "[Channel1]")
      ⟨44100, 0, 1, 1, some 1, none, fun _ => false⟩ ⟨⟨none⟩⟩).2.2.1
      (fun h => absurd h.1 (by decide))).1,
    (dragEnter_accept_iff (construct "[Channel1]")
      ⟨44100, 0, 1, 1, some 1, none, fun _ => false⟩
      ⟨⟨some [⟨"a.mp3", "file:a.mp3"⟩]⟩⟩).2.2.2.1 (by decide) ⟨1, rfl, by norm_num⟩⟩

theorem prefixed_ne_empty (a b : String) : a ++ "/" ++ b ≠ "" := by
  intro h
  have hl := congrArg String.length h
  simp [String.length_append] at hl
  exact absurd hl.1.2 (by decide)

/-- C8: when the event carries the URLs `url :: rest`, the local path of
`url` does not exist and `m_sPrefix + "/" + path` exists, `dropEvent` accepts
the event and emits `trackDropped` exactly once, with the name
`m_sPrefix + "/" + path` and the group of the viewer, whatever `rest` is. -/
theorem drop_uses_prefixed_path (w : WWaveformViewer) (env : Env) (url : QUrl)
    (rest : List QUrl)
    (hmiss : env.fileExists url.toLocalFile = false)
    (hhit : env.fileExists (w.m_sPrefix ++ "/" ++ url.toLocalFile) = true) :
    dropEvent w env ⟨⟨some (url :: rest)⟩⟩ =
      (w, [Effect.accept,
        Effect.trackDropped (w.m_sPrefix ++ "/" ++ url.toLocalFile) w.m_pGroup]) := by
  simp [dropEvent, QMimeData.hasUrls, QMimeData.urls, hmiss, hhit, prefixed_ne_empty]

/-- Witness of C8: the path `a.mp3` is missing, `/music/a.mp3` exists and a
second URL follows the first. -/
theorem drop_uses_prefixed_path_witness :
    dropEvent { construct "[Channel1]" with m_sPrefix := "/music" }
        ⟨44100, 0, 1, 1, none, none, fun s => s == "/music/a.mp3"⟩
        ⟨⟨some [⟨"a.mp3", "file:a.mp3"⟩, ⟨"b.mp3", "file:b.mp3"⟩]⟩⟩ =
      ({ construct "[Channel1]" with m_sPrefix := "/music" },
        [Effect.accept, Effect.trackDropped "/music/a.mp3" "[Channel1]"]) :=
  drop_uses_prefixed_path { construct "[Channel1]" with m_sPrefix := "/music" }
    ⟨44100, 0, 1, 1, none, none, fun s => s == "/music/a.mp3"⟩
    ⟨"a.mp3", "file:a.mp3"⟩ [⟨"b.mp3", "file:b.mp3"⟩] (by decide) (by decide)

end WWaveformViewer

/-! ## Theorems: visibility bindings -/

namespace VisibilityControlConnection

/-- C9: running `slotClearControl` twice gives the same connection as
running it once: no control reference, the toggle action disabled, and the
checked state of the toggle as it was. -/
theorem slotClearControl_idempotent (c : VisibilityControlConnection) :
    slotClearControl (slotClearControl c) = slotClearControl c ∧
      (slotClearControl c).m_pControl = none ∧
      (slotClearControl c).m_pAction.enabled = false ∧
      (slotClearControl (slotClearControl c)).m_pAction.checked =
        (slotClearControl c).m_pAction.checked ∧
      (slotClearControl c).m_pAction.checked = c.m_pAction.checked :=
  ⟨rfl, rfl, rfl, rfl, rfl⟩

/-- Counterexample to C10 as stated: for a key that names no control, the
binding is invalid, the write of `slotActionToggled(true)` is skipped and
`slotControlChanged` leaves the toggle unchecked, whether the toggle was
checked before the binding or not. -/
theorem roundtrip_missing_control_unchecked :
    (slotControlChanged
        (slotReconnectControl ⟨⟨"[Skin]", "show_samplers"⟩, none, ⟨true, true⟩⟩ (fun _ => none))
        (slotActionToggled
          (slotReconnectControl ⟨⟨"[Skin]", "show_samplers"⟩, none, ⟨true, true⟩⟩
            (fun _ => none))
          (fun _ => none) true)).m_pAction.checked = false ∧
      (slotControlChanged
        (slotReconnectControl ⟨⟨"[Skin]", "show_samplers"⟩, none, ⟨true, false⟩⟩
          (fun _ => none))
        (slotActionToggled
          (slotReconnectControl ⟨⟨"[Skin]", "show_samplers"⟩, none, ⟨true, false⟩⟩
            (fun _ => none))
          (fun _ => none) true)).m_pAction.checked = false := by
  constructor <;>
    simp [slotControlChanged, slotReconnectControl, slotActionToggled, ControlProxy.set,
      ControlProxy.valid, ControlProxy.toBool, ControlProxy.get]

/-- C10, amended: when the key of the connection names a control that
exists in the store, `slotReconnectControl` followed by
`slotActionToggled(true)` followed by `slotControlChanged` leaves the toggle
action checked, whatever the control value and the toggle state were before. -/
theorem roundtrip_checked (c : VisibilityControlConnection) (store : ControlStore)
    (hvalid : (store c.m_key).isSome = true) :
    (slotControlChanged (slotReconnectControl c store)
        (slotActionToggled (slotReconnectControl c store) store true)).m_pAction.checked
      = true := by
  simp [slotControlChanged, slotReconnectControl, slotActionToggled, ControlProxy.set,
    ControlProxy.valid, ControlProxy.toBool, ControlProxy.get, hvalid]

/-- Witness of C10: the control `[Skin],show_samplers` exists with value 0
and the toggle is unchecked before the binding. -/
theorem roundtrip_checked_witness :
    (slotControlChanged
        (slotReconnectControl ⟨⟨"[Skin]", "show_samplers"⟩, none, ⟨false, false⟩⟩
          (fun _ => some 0))
        (slotActionToggled
          (slotReconnectControl ⟨⟨"[Skin]", "show_samplers"⟩, none, ⟨false, false⟩⟩
            (fun _ => some 0))
          (fun _ => some 0) true)).m_pAction.checked = true :=
  roundtrip_checked ⟨⟨"[Skin]", "show_samplers"⟩, none, ⟨false, false⟩⟩ (fun _ => some 0) rfl

end VisibilityControlConnection

/-! ## Theorems: lifecycle of a visibility binding -/

namespace VisibilityControlConnection

/-- C11: after `slotReconnectControl` the connection holds a reference to
the control named by its key, also when no such control exists; the toggle
is enabled exactly when that control exists; the checked state is the
boolean reading of the reference, which is `value != 0` for an existing
control of value `value` and false for an absent one. -/
theorem slotReconnectControl_postcondition (c : VisibilityControlConnection)
    (store : ControlStore) :
    (slotReconnectControl c store).m_pControl = some { key := c.m_key } ∧
      ((slotReconnectControl c store).m_pAction.enabled = true ↔ (store c.m_key).isSome = true) ∧
      (slotReconnectControl c store).m_pAction.checked =
        ControlProxy.toBool { key := c.m_key } store ∧
      (∀ value : ℚ, store c.m_key = some value →
        ((slotReconnectControl c store).m_pAction.checked = true ↔ value ≠ 0)) ∧
      (store c.m_key = none → (slotReconnectControl c store).m_pAction.checked = false) ∧
      (slotReconnectControl c store).m_key = c.m_key := by
  refine ⟨?_, ?_, ?_, ?_, ?_, ?_⟩
  · simp [slotReconnectControl, slotControlChanged]
  · simp [slotReconnectControl, slotControlChanged, ControlProxy.valid]
  · simp [slotReconnectControl, slotControlChanged]
  · intro value hv
    simp [slotReconnectControl, slotControlChanged, ControlProxy.toBool, ControlProxy.get, hv]
  · intro hv
    simp [slotReconnectControl, slotControlChanged, ControlProxy.toBool, ControlProxy.get, hv]
  · simp [slotReconnectControl, slotControlChanged]

/-- Witness of C11: the control `[Master],skin_settings` exists with value
1, so the binding ends checked. -/
theorem slotReconnectControl_postcondition_witness :
    (fun _ => some 1 : ControlStore) ⟨"[Master]", "skin_settings"⟩ = some 1 ∧
      ((slotReconnectControl ⟨⟨"[Master]", "skin_settings"⟩, none, ⟨false, false⟩⟩
          (fun _ => some 1)).m_pAction.checked = true ↔ (1 : ℚ) ≠ 0) :=
  ⟨rfl, (slotReconnectControl_postcondition
    ⟨⟨"[Master]", "skin_settings"⟩, none, ⟨false, false⟩⟩ (fun _ => some 1)).2.2.2.1 1 rfl⟩

/-- C12: on a bound connection `slotActionToggled(toggle)` makes one write
of 1 (toggle true) or 0 (toggle false) through the reference: the control
of the reference takes that value and no other control changes; on an
unbound connection, never bound or after `slotClearControl`, the control
store is left as it is; the slot writes no field of the connection. -/
theorem slotActionToggled_effect (c : VisibilityControlConnection) (store : ControlStore)
    (toggle : Bool) :
    (∀ p : ControlProxy, c.m_pControl = some p →
        slotActionToggled c store toggle = p.set store (if toggle then 1 else 0) ∧
        (∀ k : ConfigKey, k ≠ p.key → slotActionToggled c store toggle k = store k) ∧
        ((store p.key).isSome = true →
          slotActionToggled c store toggle p.key = some (if toggle then 1 else 0)) ∧
        (store p.key = none → slotActionToggled c store toggle = store)) ∧
      (c.m_pControl = none → slotActionToggled c store toggle = store) ∧
      (∀ (key : ConfigKey) (a : QAction),
        slotActionToggled (construct key a) store toggle = store) ∧
      slotActionToggled (slotClearControl c) store toggle = store := by
  refine ⟨?_, ?_, ?_, ?_⟩
  · intro p hp
    refine ⟨?_, ?_, ?_, ?_⟩
    · simp [slotActionToggled, hp]
    · intro k hk
      by_cases hv : (store p.key).isSome = true
      · simp [slotActionToggled, hp, ControlProxy.set, ControlProxy.valid, hv, hk]
      · simp [slotActionToggled, hp, ControlProxy.set, ControlProxy.valid, hv]
    · intro hv
      simp [slotActionToggled, hp, ControlProxy.set, ControlProxy.valid, hv]
    · intro hv
      simp [slotActionToggled, hp, ControlProxy.set, ControlProxy.valid, hv]
  · intro hp
    simp [slotActionToggled, hp]
  · intro key a
    simp [slotActionToggled, construct]
  · simp [slotActionToggled, slotClearControl]

/-- Witness of C12: a connection bound to the existing control
`[Master],skin_settings` of value 0 is toggled on. -/
theorem slotActionToggled_effect_witness :
    (⟨⟨"[Master]", "skin_settings"⟩, some ⟨⟨"[Master]", "skin_settings"⟩⟩, ⟨true, false⟩⟩ :
        VisibilityControlConnection).m_pControl = some ⟨⟨"[Master]", "skin_settings"⟩⟩ ∧
      (fun _ => some 0 : ControlStore) ⟨"[Master]", "skin_settings"⟩ = some 0 ∧
      slotActionToggled
          ⟨⟨"[Master]", "skin_settings"⟩, some ⟨⟨"[Master]", "skin_settings"⟩⟩, ⟨true, false⟩⟩
          (fun _ => some 0) true ⟨"[Master]", "skin_settings"⟩ = some 1 :=
  ⟨rfl, rfl, ((slotActionToggled_effect
    ⟨⟨"[Master]", "skin_settings"⟩, some ⟨⟨"[Master]", "skin_settings"⟩⟩, ⟨true, false⟩⟩
    (fun _ => some 0) true).1 ⟨⟨"[Master]", "skin_settings"⟩⟩ rfl).2.2.1 rfl⟩

end VisibilityControlConnection

namespace Binding

theorem step_synced (s : Binding) (e : BindingEvent) : synced (step s e) := by
  intro p hp
  cases e with
  | skinLoaded =>
    simp only [step, VisibilityControlConnection.slotReconnectControl,
      VisibilityControlConnection.slotControlChanged] at hp ⊢
    simp only [Option.some.injEq] at hp
    subst hp
    rfl
  | skinAboutToLoad =>
    simp [step, VisibilityControlConnection.slotClearControl] at hp
  | userToggle v =>
    cases hc : s.conn.m_pControl with
    | none =>
      simp [step, VisibilityControlConnection.slotControlChanged, hc] at hp
    | some q =>
      simp only [step, VisibilityControlConnection.slotControlChanged, hc,
        Option.some.injEq] at hp ⊢
      subst hp
      rfl
  | controlChange key value =>
    cases hc : s.conn.m_pControl with
    | none =>
      simp [step, VisibilityControlConnection.slotControlChanged, hc] at hp
    | some q =>
      simp only [step, VisibilityControlConnection.slotControlChanged, hc,
        Option.some.injEq] at hp ⊢
      subst hp
      rfl

theorem create_synced (key : ConfigKey) (a : QAction) (store : ControlStore) :
    synced (create key a store) := by
  intro p hp
  simp [create, VisibilityControlConnection.construct] at hp

theorem run_synced (events : List BindingEvent) :
    ∀ s : Binding, synced s → synced (run s events) := by
  induction events with
  | nil => intro s h; simpa [run] using h
  | cons e rest ih =>
    intro s _
    simpa [run] using ih (step s e) (step_synced s e)

/-- C13: in every state reached from a freshly created binding by
`slotReconnectControl`, `slotClearControl`, user toggles and outside changes
of control values, a connection that holds a reference to an existing
control of value `value` has its toggle checked exactly when `value != 0`;
and a user toggle to `v` on such a connection leaves the toggle at `v`. -/
theorem binding_sync_invariant (key : ConfigKey) (a : QAction) (store : ControlStore)
    (events : List BindingEvent) :
    (∀ (p : ControlProxy) (value : ℚ),
        (run (create key a store) events).conn.m_pControl = some p →
        (run (create key a store) events).store p.key = some value →
          ((run (create key a store) events).conn.m_pAction.checked = true ↔ value ≠ 0)) ∧
      (∀ (p : ControlProxy) (v : Bool),
        (run (create key a store) events).conn.m_pControl = some p →
        ((run (create key a store) events).store p.key).isSome = true →
          (step (run (create key a store) events)
            (BindingEvent.userToggle v)).conn.m_pAction.checked = v) := by
  constructor
  · intro p value hp hv
    have h := run_synced events (create key a store) (create_synced key a store) p hp
    rw [h]
    simp [ControlProxy.toBool, ControlProxy.get, hv]
  · intro p v hp hv
    cases v <;>
      simp [step, VisibilityControlConnection.slotControlChanged,
        VisibilityControlConnection.slotActionToggled, hp, ControlProxy.toBool,
        ControlProxy.get, ControlProxy.set, ControlProxy.valid, hv]

/-- Witness of C13: the binding of `[Master],skin_settings`, whose control
starts at 0, after the skin is loaded, the user toggles it on and the
control is set to 5 from outside. -/
theorem binding_sync_invariant_witness :
    (run (create ⟨"[Master]", "skin_settings"⟩ QAction.created (fun _ => some 0))
        [BindingEvent.skinLoaded, BindingEvent.userToggle true,
          BindingEvent.controlChange ⟨"[Master]", "skin_settings"⟩ 5]).conn.m_pControl
        = some ⟨⟨"[Master]", "skin_settings"⟩⟩ ∧
      (run (create ⟨"[Master]", "skin_settings"⟩ QAction.created (fun _ => some 0))
        [BindingEvent.skinLoaded, BindingEvent.userToggle true,
          BindingEvent.controlChange ⟨"[Master]", "skin_settings"⟩ 5]).store
          ⟨"[Master]", "skin_settings"⟩ = some 5 ∧
      ((run (create ⟨"[Master]", "skin_settings"⟩ QAction.created (fun _ => some 0))
        [BindingEvent.skinLoaded, BindingEvent.userToggle true,
          BindingEvent.controlChange ⟨"[Master]", "skin_settings"⟩ 5]).conn.m_pAction.checked
          = true ↔ (5 : ℚ) ≠ 0) :=
  have hp : (run (create ⟨"[Master]", "skin_settings"⟩ QAction.created (fun _ => some 0))
      [BindingEvent.skinLoaded, BindingEvent.userToggle true,
        BindingEvent.controlChange ⟨"[Master]", "skin_settings"⟩ 5]).conn.m_pControl
      = some ⟨⟨"[Master]", "skin_settings"⟩⟩ := by
    simp [run, step, create, VisibilityControlConnection.construct,
      VisibilityControlConnection.slotReconnectControl,
      VisibilityControlConnection.slotControlChanged]
  have hv : (run (create ⟨"[Master]", "skin_settings"⟩ QAction.created (fun _ => some 0))
      [BindingEvent.skinLoaded, BindingEvent.userToggle true,
        BindingEvent.controlChange ⟨"[Master]", "skin_settings"⟩ 5]).store
        ⟨"[Master]", "skin_settings"⟩ = some 5 := by
    simp [run, step, create, VisibilityControlConnection.construct,
      VisibilityControlConnection.slotReconnectControl,
      VisibilityControlConnection.slotControlChanged,
      VisibilityControlConnection.slotActionToggled, ControlProxy.set, ControlProxy.valid]
  ⟨hp, hv, (binding_sync_invariant ⟨"[Master]", "skin_settings"⟩ QAction.created
    (fun _ => some 0)
    [BindingEvent.skinLoaded, BindingEvent.userToggle true,
      BindingEvent.controlChange ⟨"[Master]", "skin_settings"⟩ 5]).1
    ⟨⟨"[Master]", "skin_settings"⟩⟩ 5 hp hv⟩

end Binding

namespace VisibilityControlConnection

/-- Counterexample to C14 as stated: a toggle created enabled, as
`WMainMenuBar` creates it, is still enabled right after the connection is
constructed for it. -/
theorem construct_leaves_action_enabled :
    (construct ⟨"[Master]", "skin_settings"⟩ QAction.created).m_pControl = none ∧
      (construct ⟨"[Master]", "skin_settings"⟩ QAction.created).m_pAction.enabled = true ∧
      (Binding.create ⟨"[Master]", "skin_settings"⟩ QAction.created
        (fun _ => some 1)).conn.m_pAction.enabled = true := by
  refine ⟨rfl, rfl, rfl⟩

/-- C14, amended: right after construction the connection holds no control
reference and the toggle action is exactly as the caller passed it, enabled
state included: the constructor makes no call on the action; the action is
first disabled by `slotClearControl`, or by `slotReconnectControl` when the
control does not exist. -/
theorem construct_initial_state (key : ConfigKey) (a : QAction) (store : ControlStore) :
    (construct key a).m_pControl = none ∧
      (construct key a).m_pAction = a ∧
      (construct key a).m_key = key ∧
      (slotClearControl (construct key a)).m_pAction.enabled = false ∧
      ((slotReconnectControl (construct key a) store).m_pAction.enabled = false ↔
        store key = none) := by
  refine ⟨rfl, rfl, rfl, rfl, ?_⟩
  cases h : store key <;>
    simp [slotReconnectControl, slotControlChanged, construct, ControlProxy.valid, h]

end VisibilityControlConnection

namespace WWaveformViewer

/-! ## Theorems: the sentinel of the moves and the rate multiplier -/

/-- C15, at the failing input: after a left press at x = -1 the constructed
viewer is Scratching, and after a right press at x = -1 it is Bending, yet
`m_iMouseStart` equals the sentinel -1 and a following `mouseMoveEvent`
writes nothing and emits nothing. -/
theorem move_after_press_at_minus_one_is_silent :
    (run (construct "[Channel1]")
        [Input.mousePress ⟨44100, 0, 1, 1, none, none, fun _ => false⟩
          ⟨MouseButton.LeftButton, ⟨-1, 10⟩⟩]).m_bScratching = true ∧
      (mouseMoveEvent
        (run (construct "[Channel1]")
          [Input.mousePress ⟨44100, 0, 1, 1, none, none, fun _ => false⟩
            ⟨MouseButton.LeftButton, ⟨-1, 10⟩⟩])
        ⟨44100, 0, 1, 1, none, none, fun _ => false⟩
        ⟨MouseButton.NoButton, ⟨50, 10⟩⟩).2 = [] ∧
      (run (construct "[Channel1]")
        [Input.mousePress ⟨44100, 0, 1, 1, none, none, fun _ => false⟩
          ⟨MouseButton.RightButton, ⟨-1, 10⟩⟩]).m_bBending = true ∧
      (mouseMoveEvent
        (run (construct "[Channel1]")
          [Input.mousePress ⟨44100, 0, 1, 1, none, none, fun _ => false⟩
            ⟨MouseButton.RightButton, ⟨-1, 10⟩⟩])
        ⟨44100, 0, 1, 1, none, none, fun _ => false⟩
        ⟨MouseButton.NoButton, ⟨50, 10⟩⟩).2 = [] ∧
      (mouseMoveEvent
        (run (construct "[Channel1]")
          [Input.mousePress ⟨44100, 0, 1, 1, none, none, fun _ => false⟩
            ⟨MouseButton.LeftButton, ⟨0, 10⟩⟩])
        ⟨44100, 0, 1, 1, none, none, fun _ => false⟩
        ⟨MouseButton.NoButton, ⟨50, 10⟩⟩).2 = [Effect.scratchSet (-44100)] := by
  refine ⟨?_, ?_, ?_, ?_, ?_⟩
  · simp [run, handle, mousePressEvent, construct]
  · simp [run, handle, mousePressEvent, construct, mouseMoveEvent]
  · simp [run, handle, mousePressEvent, construct]
  · simp [run, handle, mousePressEvent, construct, mouseMoveEvent]
  · rw [mouseMoveEvent_snd]
    have hmin : min (99 / 100 : ℚ) 0 = 0 := min_eq_right (by norm_num)
    norm_num [run, handle, mousePressEvent, construct, specScratchTarget,
      specSamplesPerPixel, specRateAdjust, hmin]

/-- Counterexample to C16 as stated: with `rateDir = 1`, `rate = -1` and
`rateRange = 1` the multiplier is 0, and with `rateRange = 2` it is -1; the
scratch target written for `dx = 100` at 44100 Hz is then 0 and 88200, not
negative. -/
theorem rate_multiplier_not_positive :
    1 + specRateAdjust (-1) 1 1 = 0 ∧
      1 + specRateAdjust (-1) 2 1 = -1 ∧
      (mouseMoveEvent
        { construct "[Channel1]" with m_bScratching := true, m_iMouseStart := 0 }
        ⟨44100, -1, 1, 1, none, none, fun _ => false⟩
        ⟨MouseButton.NoButton, ⟨100, 0⟩⟩).2 = [Effect.scratchSet 0] ∧
      (mouseMoveEvent
        { construct "[Channel1]" with m_bScratching := true, m_iMouseStart := 0 }
        ⟨44100, -1, 2, 1, none, none, fun _ => false⟩
        ⟨MouseButton.NoButton, ⟨100, 0⟩⟩).2 = [Effect.scratchSet 88200] := by
  have h1 : min (99 / 100 : ℚ) (-1) = -1 := min_eq_right (by norm_num)
  have h2 : min (99 / 100 : ℚ) (-2) = -2 := min_eq_right (by norm_num)
  refine ⟨?_, ?_, ?_, ?_⟩
  · norm_num [specRateAdjust, h1]
  · norm_num [specRateAdjust, h2]
  · rw [mouseMoveEvent_snd]
    norm_num [construct, QPoint.null, specScratchTarget, specSamplesPerPixel,
      specRateAdjust, h1]
  · rw [mouseMoveEvent_snd]
    norm_num [construct, QPoint.null, specScratchTarget, specSamplesPerPixel,
      specRateAdjust, h2]

theorem specRateAdjust_neg_dir (rate rateRange : ℚ) :
    1 / 100 ≤ 1 + specRateAdjust rate rateRange (-1) := by
  unfold specRateAdjust
  have h : min (99 / 100 : ℚ) (rate * rateRange) ≤ 99 / 100 := min_le_left _ _
  linarith

theorem specRateAdjust_pos_dir (rate rateRange : ℚ) :
    1 / 100 ≤ 1 + specRateAdjust rate rateRange 1 ↔ -(99 / 100) ≤ rate * rateRange := by
  unfold specRateAdjust
  constructor
  · intro h
    have h1 : min (99 / 100 : ℚ) (rate * rateRange) ≤ rate * rateRange := min_le_right _ _
    linarith
  · intro h
    have h1 : -(99 / 100 : ℚ) ≤ min (99 / 100 : ℚ) (rate * rateRange) :=
      le_min (by norm_num) h
    linarith

/-- C16, amended: for `rateDir = -1` the multiplier
`1 + rateDir * min(0.99, rate * rateRange)` is at least 0.01 for every rate
and rateRange; for `rateDir = 1` it is at least 0.01 exactly when
`rate * rateRange >= -0.99`; in both of these cases, for positive
sampleRate, the scratch target written by a Scratching viewer is negative
for positive `dx`, positive for negative `dx` and 0 for `dx = 0`. -/
theorem rate_multiplier_positive :
    (∀ rate rateRange : ℚ, 1 / 100 ≤ 1 + specRateAdjust rate rateRange (-1)) ∧
    (∀ rate rateRange : ℚ,
      1 / 100 ≤ 1 + specRateAdjust rate rateRange 1 ↔ -(99 / 100) ≤ rate * rateRange) ∧
    (∀ (w : WWaveformViewer) (env : Env) (event : QMouseEvent),
      w.m_iMouseStart ≠ -1 → w.m_bScratching = true → 0 < env.track_samplerate →
      (env.rate_dir = -1 ∨ (env.rate_dir = 1 ∧ -(99 / 100) ≤ env.rate * env.rateRange)) →
        ∃ v : ℚ, (mouseMoveEvent w env event).2 = [Effect.scratchSet v] ∧
          (0 < event.pos.x - w.m_mouseAnchor.x → v < 0) ∧
          (event.pos.x - w.m_mouseAnchor.x < 0 → 0 < v) ∧
          (event.pos.x - w.m_mouseAnchor.x = 0 → v = 0)) := by
  refine ⟨specRateAdjust_neg_dir, specRateAdjust_pos_dir, ?_⟩
  intro w env event hm hs hrate hdir
  have hmul : 1 / 100 ≤ 1 + specRateAdjust env.rate env.rateRange env.rate_dir := by
    rcases hdir with hd | ⟨hd, hr⟩
    · rw [hd]; exact specRateAdjust_neg_dir _ _
    · rw [hd]; exact (specRateAdjust_pos_dir _ _).2 hr
  have hmpos : 0 < 1 + specRateAdjust env.rate env.rateRange env.rate_dir := by linarith
  have hspp : 0 < specSamplesPerPixel env.track_samplerate := by
    unfold specSamplesPerPixel; linarith
  have hpos : 0 < specSamplesPerPixel env.track_samplerate *
      (1 + specRateAdjust env.rate env.rateRange env.rate_dir) := mul_pos hspp hmpos
  refine ⟨specScratchTarget (event.pos.x - w.m_mouseAnchor.x) env.track_samplerate
    env.rate env.rateRange env.rate_dir, ?_, ?_, ?_, ?_⟩
  · rw [mouseMoveEvent_snd]
    simp [hm, hs]
  · intro hdx
    have hq : (0 : ℚ) < ((event.pos.x - w.m_mouseAnchor.x : Int) : ℚ) := by exact_mod_cast hdx
    unfold specScratchTarget
    rw [mul_assoc]
    nlinarith
  · intro hdx
    have hq : (((event.pos.x - w.m_mouseAnchor.x : Int) : ℚ)) < 0 := by exact_mod_cast hdx
    unfold specScratchTarget
    rw [mul_assoc]
    nlinarith
  · intro hdx
    unfold specScratchTarget
    rw [hdx]
    simp

/-- Witness of C16: a Scratching viewer anchored at x = 0 moves to x = 100
at 44100 Hz with rate 1, rateRange 1 and rateDir -1. -/
theorem rate_multiplier_positive_witness :
    ∃ v : ℚ, (mouseMoveEvent
        { construct "[Channel1]" with m_bScratching := true, m_iMouseStart := 0 }
        ⟨44100, 1, 1, -1, none, none, fun _ => false⟩
        ⟨MouseButton.NoButton, ⟨100, 0⟩⟩).2 = [Effect.scratchSet v] ∧ v < 0 :=
  have h := rate_multiplier_positive.2.2
    { construct "[Channel1]" with m_bScratching := true, m_iMouseStart := 0 }
    ⟨44100, 1, 1, -1, none, none, fun _ => false⟩
    ⟨MouseButton.NoButton, ⟨100, 0⟩⟩ (by decide) rfl (by norm_num) (Or.inl rfl)
  h.elim fun v hv => ⟨v, hv.1, hv.2.1 (by decide)⟩

end WWaveformViewer

namespace WWaveformViewer

/-! ## Theorems: drop fallback, wheel and right press -/

/-- Counterexample to C17 as stated: the local path `a.mp3` exists neither
as given nor under the library path, and the emitted name is that local
path, not the URL string `file:a.mp3`. -/
theorem drop_missing_file_keeps_local_path :
    dropEvent { construct "[Channel1]" with m_sPrefix := "/music" }
        ⟨44100, 0, 1, 1, none, none, fun _ => false⟩
        ⟨⟨some [⟨"a.mp3", "file:a.mp3"⟩]⟩⟩ =
      ({ construct "[Channel1]" with m_sPrefix := "/music" },
        [Effect.accept, Effect.trackDropped "a.mp3" "[Channel1]"]) ∧
      droppedNames (dropEvent { construct "[Channel1]" with m_sPrefix := "/music" }
        ⟨44100, 0, 1, 1, none, none, fun _ => false⟩
        ⟨⟨some [⟨"a.mp3", "file:a.mp3"⟩]⟩⟩).2 ≠ ["file:a.mp3"] := by
  constructor
  · simp [dropEvent, QMimeData.hasUrls, QMimeData.urls, construct]
  · simp [dropEvent, QMimeData.hasUrls, QMimeData.urls, construct, droppedNames]

/-- C17, amended: when the event carries the URLs `url :: rest` and the
local path of `url` exists neither as given nor as `m_sPrefix + "/" + path`,
`dropEvent` accepts the event and emits `trackDropped` once; the name is the
URL string `url.toString()` when the local path is empty and the local path
itself, unchanged, when it is not empty. -/
theorem drop_final_fallback (w : WWaveformViewer) (env : Env) (url : QUrl)
    (rest : List QUrl)
    (hmiss : env.fileExists url.toLocalFile = false)
    (hmiss2 : env.fileExists (w.m_sPrefix ++ "/" ++ url.toLocalFile) = false) :
    dropEvent w env ⟨⟨some (url :: rest)⟩⟩ =
        (w, [Effect.accept,
          Effect.trackDropped (if url.toLocalFile = "" then url.toString else url.toLocalFile)
            w.m_pGroup]) ∧
      (url.toLocalFile = "" →
        droppedNames (dropEvent w env ⟨⟨some (url :: rest)⟩⟩).2 = [url.toString]) ∧
      (url.toLocalFile ≠ "" →
        droppedNames (dropEvent w env ⟨⟨some (url :: rest)⟩⟩).2 = [url.toLocalFile]) := by
  have h : dropEvent w env ⟨⟨some (url :: rest)⟩⟩ =
      (w, [Effect.accept,
        Effect.trackDropped (if url.toLocalFile = "" then url.toString else url.toLocalFile)
          w.m_pGroup]) := by
    simp [dropEvent, QMimeData.hasUrls, QMimeData.urls, hmiss, hmiss2]
  refine ⟨h, ?_, ?_⟩
  · intro he
    rw [h]
    simp [droppedNames, he]
  · intro he
    rw [h]
    simp [droppedNames, he]

/-- Witness of C17: a URL without a local path, as for a network share,
is dropped while no file exists. -/
theorem drop_final_fallback_witness :
    droppedNames (dropEvent (construct "[Channel1]")
        ⟨44100, 0, 1, 1, none, none, fun _ => false⟩
        ⟨⟨some [⟨"", "smb://host/a.mp3"⟩]⟩⟩).2 = ["smb://host/a.mp3"] :=
  (drop_final_fallback (construct "[Channel1]")
    ⟨44100, 0, 1, 1, none, none, fun _ => false⟩ ⟨"", "smb://host/a.mp3"⟩ [] rfl rfl).2.1 rfl

/-- C18: with a renderer attached `wheelEvent` calls `zoomIn` once and no
`zoomOut` when `delta > 0`, and `zoomOut` once and no `zoomIn` when
`delta <= 0`, followed by one `onZoomChange` when the factory instance
exists and by nothing when it does not; without a renderer it makes no call;
the viewer is unchanged in every case. -/
theorem wheel_zoom (w : WWaveformViewer) (env : Env) (event : QWheelEvent) :
    (w.m_waveformWidget = true → 0 < event.delta →
        (wheelEvent w env event).2 =
          Effect.zoomIn :: (if env.factory.isSome then [Effect.onZoomChange] else [])) ∧
      (w.m_waveformWidget = true → event.delta ≤ 0 →
        (wheelEvent w env event).2 =
          Effect.zoomOut :: (if env.factory.isSome then [Effect.onZoomChange] else [])) ∧
      (w.m_waveformWidget = false → (wheelEvent w env event).2 = []) ∧
      (wheelEvent w env event).1 = w := by
  refine ⟨?_, ?_, ?_, wheelEvent_fst w env event⟩
  · intro hw hd
    cases hf : env.factory <;> simp [wheelEvent, hw, hd, hf]
  · intro hw hd
    have hd2 : ¬ 0 < event.delta := not_lt.mpr hd
    cases hf : env.factory <;> simp [wheelEvent, hw, hd2, hf]
  · intro hw
    simp [wheelEvent, hw]

/-- Witness of C18: a wheel event of delta 0 on a viewer with a renderer,
the factory present. -/
theorem wheel_zoom_witness :
    (wheelEvent { construct "[Channel1]" with m_waveformWidget := true }
        ⟨44100, 0, 1, 1, none, some 3, fun _ => false⟩ ⟨0⟩).2 =
      [Effect.zoomOut, Effect.onZoomChange] :=
  (wheel_zoom { construct "[Channel1]" with m_waveformWidget := true }
    ⟨44100, 0, 1, 1, none, some 3, fun _ => false⟩ ⟨0⟩).2.1 rfl (by decide)

/-- C19: a press with the right button, from any mode, ends with
`m_bBending` true and `m_bScratching` false and emits
`valueChangedRightDown(64)` once and no other bend value; with a renderer
attached and the factory present its calls end with `setZoom(default zoom)`
followed by `onZoomChange`, each once; with the renderer or the factory
absent it makes no zoom call. -/
theorem press_right_bends_and_resets_zoom (w : WWaveformViewer) (env : Env)
    (event : QMouseEvent) (hr : event.button = MouseButton.RightButton) :
    (mousePressEvent w env event).1.m_bBending = true ∧
      (mousePressEvent w env event).1.m_bScratching = false ∧
      bendValues (mousePressEvent w env event).2 = [64] ∧
      (∀ defaultZoom : Int, w.m_waveformWidget = true → env.factory = some defaultZoom →
        zoomCalls (mousePressEvent w env event).2 =
            [Effect.setZoom defaultZoom, Effect.onZoomChange] ∧
          (mousePressEvent w env event).2 =
            (if w.m_bScratching then [Effect.scratchSet 0, Effect.scratchEnableSet 0] else [])
              ++ [Effect.valueChangedRightDown 64, Effect.setZoom defaultZoom,
                Effect.onZoomChange]) ∧
      (w.m_waveformWidget = false ∨ env.factory = none →
        zoomCalls (mousePressEvent w env event).2 = [] ∧
          (mousePressEvent w env event).2 =
            (if w.m_bScratching then [Effect.scratchSet 0, Effect.scratchEnableSet 0] else [])
              ++ [Effect.valueChangedRightDown 64]) := by
  have hne : ¬ MouseButton.RightButton = MouseButton.LeftButton := by decide
  refine ⟨?_, ?_, ?_, ?_, ?_⟩
  · cases hs : w.m_bScratching <;> simp [mousePressEvent, hr, hne, hs]
  · cases hs : w.m_bScratching <;> simp [mousePressEvent, hr, hne, hs]
  · cases hs : w.m_bScratching <;> cases hw : w.m_waveformWidget <;>
      cases hf : env.factory <;> simp [mousePressEvent, hr, hne, hs, hw, hf, bendValues]
  · intro z hw hf
    cases hs : w.m_bScratching <;> simp [mousePressEvent, hr, hne, hs, hw, hf, zoomCalls]
  · intro h
    rcases h with hw | hf
    · cases hs : w.m_bScratching <;> simp [mousePressEvent, hr, hne, hs, hw, zoomCalls]
    · cases hs : w.m_bScratching <;> cases hw : w.m_waveformWidget <;>
        simp [mousePressEvent, hr, hne, hs, hw, hf, zoomCalls]

/-- Witness of C19: an idle viewer with a renderer receives a right press
while the factory exists with default zoom 3. -/
theorem press_right_bends_and_resets_zoom_witness :
    (mousePressEvent { construct "[Channel1]" with m_waveformWidget := true }
        ⟨44100, 0, 1, 1, none, some 3, fun _ => false⟩
        ⟨MouseButton.RightButton, ⟨7, 2⟩⟩).1.m_bBending = true ∧
      zoomCalls (mousePressEvent { construct "[Channel1]" with m_waveformWidget := true }
        ⟨44100, 0, 1, 1, none, some 3, fun _ => false⟩
        ⟨MouseButton.RightButton, ⟨7, 2⟩⟩).2 = [Effect.setZoom 3, Effect.onZoomChange] :=
  have h := press_right_bends_and_resets_zoom
    { construct "[Channel1]" with m_waveformWidget := true }
    ⟨44100, 0, 1, 1, none, some 3, fun _ => false⟩
    ⟨MouseButton.RightButton, ⟨7, 2⟩⟩ rfl
  ⟨h.1, (h.2.2.2.1 3 rfl rfl).1⟩

end WWaveformViewer

namespace WWaveformViewer

/-! ## Theorems: consistency of the scratch controls -/

end WWaveformViewer

namespace WWaveformViewer

/-! ## Theorems: the library path -/

theorem inspectedIndex_snoc (body : List Char) (c : Char) :
    inspectedIndex (String.mk (body ++ [c])) = (body.length : Int) := by
  simp [inspectedIndex, String.length]

theorem index_last_snoc (body : List Char) (c : Char) :
    QString.index (String.mk (body ++ [c])) (inspectedIndex (String.mk (body ++ [c])))
      = some c := by
  rw [inspectedIndex_snoc]
  simp [QString.index]

theorem chop_snoc (body : List Char) (c : Char) :
    QString.chop (String.mk (body ++ [c])) 1 = String.mk body := by
  simp [QString.chop]

theorem nonempty_eq_snoc (s : String) (h : s ≠ "") :
    ∃ (body : List Char) (c : Char), s = String.mk (body ++ [c]) := by
  have hd : s.data ≠ [] := by
    intro hnil
    apply h
    cases s
    simp_all
  refine ⟨s.data.dropLast, s.data.getLast hd, ?_⟩
  rw [List.dropLast_append_getLast hd]

/-- C21: for every non-empty string the index `length - 1` that
`setLibraryPrefix` inspects lies inside the string and the setter is
defined; a string `body + c` with `c` one of `/` and `\` is stored as
`body`, so exactly one separator is removed and `/music//` is stored as
`/music/`; a string ending in another character is stored unchanged; for
the empty string the inspected index is -1, outside the string, and the
setter is not defined. -/
theorem setLibraryPrefix_spec (w : WWaveformViewer) :
    (∀ s : String, s ≠ "" →
        0 ≤ inspectedIndex s ∧ inspectedIndex s < (s.length : Int) ∧
          (QString.index s (inspectedIndex s)).isSome = true ∧
          (setLibraryPrefix w s).isSome = true ∧
          ∃ (body : List Char) (c : Char), s = String.mk (body ++ [c])) ∧
      (∀ (body : List Char) (c : Char), c = '/' ∨ c = '\\' →
        setLibraryPrefix w (String.mk (body ++ [c])) =
          some { w with m_sPrefix := String.mk body }) ∧
      (∀ (body : List Char) (c : Char), c ≠ '/' → c ≠ '\\' →
        setLibraryPrefix w (String.mk (body ++ [c])) =
          some { w with m_sPrefix := String.mk (body ++ [c]) }) ∧
      setLibraryPrefix w "/music//" = some { w with m_sPrefix := "/music/" } ∧
      inspectedIndex "" = -1 ∧
      QString.index "" (inspectedIndex "") = none ∧
      setLibraryPrefix w "" = none := by
  have hsep : ∀ (body : List Char) (c : Char), c = '/' ∨ c = '\\' →
      setLibraryPrefix w (String.mk (body ++ [c])) =
        some { w with m_sPrefix := String.mk body } := by
    intro body c hc
    unfold setLibraryPrefix
    simp only [index_last_snoc, hc, if_true, chop_snoc]
  have hother : ∀ (body : List Char) (c : Char), c ≠ '/' → c ≠ '\\' →
      setLibraryPrefix w (String.mk (body ++ [c])) =
        some { w with m_sPrefix := String.mk (body ++ [c]) } := by
    intro body c h1 h2
    unfold setLibraryPrefix
    simp only [index_last_snoc, h1, h2, or_self, if_false]
  refine ⟨?_, hsep, hother, ?_, ?_, ?_, ?_⟩
  · intro s hs
    obtain ⟨body, c, rfl⟩ := nonempty_eq_snoc s hs
    refine ⟨?_, ?_, ?_, ?_, body, c, rfl⟩
    · rw [inspectedIndex_snoc]; exact Int.natCast_nonneg _
    · rw [inspectedIndex_snoc]; simp [String.length]
    · rw [index_last_snoc]; rfl
    · by_cases hc : c = '/' ∨ c = '\\'
      · rw [hsep body c hc]; rfl
      · rw [hother body c (fun h => hc (Or.inl h)) (fun h => hc (Or.inr h))]; rfl
  · exact hsep "/music/".data '/' (Or.inl rfl)
  · rfl
  · rfl
  · rfl

/-- Witness of C21: the Windows path `C:\music\` is stored as `C:\music`. -/
theorem setLibraryPrefix_spec_witness :
    ('\\' = '/' ∨ '\\' = '\\') ∧
      setLibraryPrefix (construct "[Channel1]") (String.mk ("C:\\music".data ++ ['\\'])) =
        some { construct "[Channel1]" with m_sPrefix := String.mk "C:\\music".data } :=
  ⟨Or.inr rfl, (setLibraryPrefix_spec (construct "[Channel1]")).2.1 "C:\\music".data '\\'
    (Or.inr rfl)⟩

end WWaveformViewer

namespace WMainMenuBar

/-! ## Theorems: visibility of the deck actions -/

end WMainMenuBar

end Mixxx
